import Mathlib

/-!
Verification of the mnexec execution utility

A shallow embedding of `mnexec.c` (the Mininet execution utility): namespace
attach/create, the fork/session/wait lifecycle, cgroup joining, mount
remediation, RT-scheduling setup, and PID reporting.

OS interactions (stat/open/setns/chroot/chdir/unshare/fork/fopen/mount/
sched_setscheduler/execvp) are modelled by an oracle environment `Env` whose
fields give each call's outcome; every performed call is recorded as an
`Event` so that theorems can speak about which operations ran and in which
order.  Machine `int` values (flag words, return codes) are modelled as `Int`
with the bitwise operations of two's complement integers, matching C `int`
semantics on these (small, non-overflowing) values.
-/

namespace Mnexec

/-- The unsigned 32-bit image of a C `int` value (two's complement). -/
def toU32 (x : Int) : Nat := (x % 4294967296).toNat

/-- Read an unsigned 32-bit word back as a C `int` value. -/
def ofU32 (u : Nat) : Int := if u < 2147483648 then (u : Int) else (u : Int) - 4294967296

/-- C `x | y` on 32-bit two's complement `int`s. -/
def cOr (x y : Int) : Int := ofU32 (Nat.lor (toU32 x) (toU32 y))

/-- C `x & y` on 32-bit two's complement `int`s. -/
def cAnd (x y : Int) : Int := ofU32 (Nat.land (toU32 x) (toU32 y))

/-- The `CLONE_*` flag constants used by mnexec (values from `linux/sched.h`). -/
def CLONE_NEWNS : Int := 0x00020000

/-- The `CLONE_NEWUTS` flag constant. -/
def CLONE_NEWUTS : Int := 0x04000000

/-- The `CLONE_NEWPID` flag constant. -/
def CLONE_NEWPID : Int := 0x20000000

/-- The `CLONE_NEWNET` flag constant. -/
def CLONE_NEWNET : Int := 0x40000000

/-- The C `struct namespace`: a namespace kind (clone flag plus `/proc` entry name). -/
structure NamespaceK where
  type : Int
  name : String
deriving Repr, DecidableEq

/-- The `namespaces[]` array: kinds supported by the command, in source order. -/
def namespacesL : List NamespaceK :=
  [⟨CLONE_NEWNET, "net"⟩, ⟨CLONE_NEWPID, "pid"⟩, ⟨CLONE_NEWUTS, "uts"⟩, ⟨CLONE_NEWNS, "mnt"⟩]

/-- Observable operations performed by the program (the calls the C code makes). -/
inductive Event where
  | closeFDs
  | openNs (name : String)
  | setnsNs (name : String)
  | chrootCall (pid : Int)
  | chdirCwd
  | unshareCall (flags : Int)
  | setsidCall
  | setpgidCall
  | forkCall
  | waitCall
  | pidReport (bytes : List Nat)
  | cgroupOpen (controller gname : String)
  | cgroupWrite (controller gname : String) (pid : Nat)
  | mountPrivate
  | mountSys
  | mountProc
  | schedSet (prio : Int)
  | execCmd
  | usagePrinted
  | diag (msg : String)
deriving Repr, DecidableEq

/-- How a run of the process (or of the forked child) ends. -/
inductive Outcome where
  | exit (code : Int)
  | execed
  | assertFail
  | undefined
deriving Repr, DecidableEq

/-- Oracle environment: outcomes of every OS call mnexec can make, keyed where
needed by namespace name or cgroup controller name, plus ambient process facts
(own pid, whether we are currently the process-group leader). -/
structure Env where
  nsStatTarget : String → Option (Nat × Nat)
  nsStatSelf : String → Option (Nat × Nat)
  nsOpenOk : String → Bool
  nsSetnsOk : String → Bool
  chrootOk : Bool
  chdirOk : Bool
  unshareOk : Bool
  forkResult : Option Nat
  waitStatus : Int
  cgroupOpenOk : String → Bool
  mountPrivOk : Bool
  mountSysOk : Bool
  mountProcOk : Bool
  schedOk : Bool
  execOk : Bool
  selfPid : Nat
  pgrpLeader : Bool

/-- The two `stat` calls of `attachns` and the dev/inode comparison: true when
both stats succeed and `(st_dev, st_ino)` coincide, i.e. the target already
shares this namespace with the caller. -/
def sameNsStat (env : Env) (name : String) : Bool :=
  match env.nsStatTarget name, env.nsStatSelf name with
  | some b1, some b2 => b1.1 == b2.1 && b1.2 == b2.2
  | _, _ => false

/-- Function `attachns(pid, ns)`: returns the ns flag (> 0) on success, 0 if the
namespace is not different from the caller's, and -1 (the failing `open` /
`setns` return value) on error; paired with the trace of calls performed. -/
def attachns (env : Env) (ns : NamespaceK) : Int × List Event :=
  if sameNsStat env ns.name then (0, [])
  else if !env.nsOpenOk ns.name then (-1, [Event.openNs ns.name])
  else if !env.nsSetnsOk ns.name then (-1, [Event.openNs ns.name, Event.setnsNs ns.name])
  else (ns.type, [Event.openNs ns.name, Event.setnsNs ns.name])

/-- The loop body of `attach`: iterate over the namespace list accumulating
`flag |= ret`, with the mount-namespace chroot fallback, and the final
`chdir(cwd)`.  Returns `attach`'s `int` result and the call trace. -/
def attachLoop (env : Env) (pid : Int) : List NamespaceK → Int → Int × List Event
  | [], flag =>
    if env.chdirOk then (flag, [Event.chdirCwd])
    else (-1, [Event.chdirCwd])
  | ns :: rest, flag =>
    let r := attachns env ns
    if r.1 < 0 then
      if ns.type == CLONE_NEWNS then
        if env.chrootOk then
          let rec1 := attachLoop env pid rest (cOr flag r.1)
          (rec1.1, r.2 ++ (Event.chrootCall pid :: rec1.2))
        else (-1, r.2 ++ [Event.chrootCall pid])
      else (-1, r.2)
    else
      let rec1 := attachLoop env pid rest (cOr flag r.1)
      (rec1.1, r.2 ++ rec1.2)

/-- Function `attach(pid)`: attach to pid's namespaces; returns the accumulated flag
word (or -1) together with the trace. -/
def attach (env : Env) (pid : Int) : Int × List Event :=
  attachLoop env pid namespacesL 0

/-- Function `validate(path)`: alphanumeric-or-slash check for cgroup names. -/
def validate (path : String) : Bool :=
  path.toList.all fun s => s.isAlphanum || s == '/'

/-- One iteration of `cgroup`'s controller loop: the `fopen` attempt on
`/sys/fs/cgroup/<g>/<gname>/tasks` and, when it opens, the write of the pid. -/
def cgroupController (env : Env) (gname : String) (pid : Nat) (g : String) : List Event :=
  Event.cgroupOpen g gname ::
    (if env.cgroupOpenOk g then [Event.cgroupWrite g gname pid] else [])

/-- Function `cgroup(gname)`: validate the name, try to add our pid under each of the
controllers `cpu`, `cpuacct`, `cpuset`, and fail (exit 1, with a diagnostic
naming the group) iff no controller's tasks file could be opened.
`none` as second component means the function returned normally. -/
def cgroup (env : Env) (gname : String) (pid : Nat) : List Event × Option Outcome :=
  if !validate gname then
    ([Event.diag ("invalid path: " ++ gname)], some (Outcome.exit 1))
  else
    let evs := cgroupController env gname pid "cpu" ++
               cgroupController env gname pid "cpuacct" ++
               cgroupController env gname pid "cpuset"
    if env.cgroupOpenOk "cpu" || env.cgroupOpenOk "cpuacct" || env.cgroupOpenOk "cpuset" then
      (evs, none)
    else
      (evs ++ [Event.diag ("cgroup: could not add to cgroup " ++ gname)], some (Outcome.exit 1))

/-- C `atoi` on the digit part: consume leading decimal digits, stop at the
first non-digit. -/
def atoiDigits : List Char → Nat → Nat
  | ch :: rest, acc =>
    if ch.isDigit then atoiDigits rest (acc * 10 + (ch.toNat - 48)) else acc
  | [], acc => acc

/-- C `atoi`: skip leading whitespace, optional sign, then a digit prefix. -/
def atoi (s : String) : Int :=
  let cs := s.toList.dropWhile fun ch =>
    ch == ' ' || ch == '\t' || ch == '\n' || ch == '\r'
  match cs with
  | '-' :: rest => -(atoiDigits rest 0 : Int)
  | '+' :: rest => (atoiDigits rest 0 : Int)
  | rest => (atoiDigits rest 0 : Int)

/-- Little-endian decimal digits of `n` (fuelled so the definition is
structural and kernel-evaluable; `decDigitsRev` supplies fuel `n`, which is
always enough since a positive number has at most `n` digits). -/
def decDigitsRevFuel : Nat → Nat → List Nat
  | _, 0 => []
  | 0, _ + 1 => []
  | fuel + 1, n + 1 => ((n + 1) % 10) :: decDigitsRevFuel fuel ((n + 1) / 10)

/-- Little-endian decimal digits of `n` (empty for 0). -/
def decDigitsRev (n : Nat) : List Nat := decDigitsRevFuel n n

/-- The bytes `printf("%d", p)` emits for a non-negative pid: ASCII decimal
digits, most significant first ("0" for 0). -/
def decBytes (p : Nat) : List Nat :=
  if p == 0 then [48] else ((decDigitsRev p).map (· + 48)).reverse

/-- The bytes of `printf("\001%d\n", p)`: control byte 1, decimal digits,
newline. -/
def pidReportBytes (p : Nat) : List Nat := 1 :: decBytes p ++ [10]

/-- Options as delivered by `getopt` (each argument-taking option carries its
`optarg` text).  `-v` and `-h` exit inside the parse loop and are outside the
modelled main flow. -/
inductive OptItem where
  | fc
  | fd
  | fm
  | fn
  | fp
  | fP
  | fu
  | fa (s : String)
  | fg (s : String)
  | fr (s : String)
deriving Repr, DecidableEq

/-- The variables mutated by the option-parsing `while`/`switch` loop,
including the shared `optarg` pointer (last argument-taking option's text). -/
structure ParseState where
  flags : Int
  closefds : Bool
  detachtty : Bool
  printpid : Bool
  attachpid : Int
  cgrouparg : Option String
  rtprio : Int
  optarg : Option String
deriving Repr, DecidableEq

/-- Variable initialisation at the top of `main`. -/
def initParse : ParseState :=
  { flags := 0, closefds := false, detachtty := false, printpid := false,
    attachpid := 0, cgrouparg := none, rtprio := 0, optarg := none }

/-- One case of the option `switch`. -/
def applyOpt (st : ParseState) : OptItem → ParseState
  | OptItem.fc => { st with closefds := true }
  | OptItem.fd => { st with detachtty := true }
  | OptItem.fm => { st with flags := cOr st.flags CLONE_NEWNS }
  | OptItem.fn => { st with flags := cOr (cOr st.flags CLONE_NEWNET) CLONE_NEWNS }
  | OptItem.fp => { st with printpid := true }
  | OptItem.fP => { st with flags := cOr (cOr st.flags CLONE_NEWPID) CLONE_NEWNS }
  | OptItem.fa s => { st with attachpid := atoi s, optarg := some s }
  | OptItem.fg s => { st with cgrouparg := some s, optarg := some s }
  | OptItem.fr s => { st with rtprio := atoi s, optarg := some s }
  | OptItem.fu => { st with flags := cOr st.flags CLONE_NEWUTS }

/-- The whole `getopt` loop. -/
def parseOpts (items : List OptItem) : ParseState :=
  items.foldl applyOpt initParse

/-- The inputs `main` works from after parsing: parsed option state plus
whether a command was supplied (`optind < argc`). -/
structure Args where
  flags : Int
  closefds : Bool
  attachpid : Int
  cgrouparg : Option String
  detachtty : Bool
  printpid : Bool
  rtprio : Int
  optargFinal : Option String
  hasCommand : Bool
deriving Repr, DecidableEq

/-- Package a parse result as `main` inputs. -/
def argsOfParse (st : ParseState) (hasCommand : Bool) : Args :=
  { flags := st.flags, closefds := st.closefds, attachpid := st.attachpid,
    cgrouparg := st.cgrouparg, detachtty := st.detachtty, printpid := st.printpid,
    rtprio := st.rtprio, optargFinal := st.optarg, hasCommand := hasCommand }

/-- Namespace resolution in `main`: `attach(attachpid)` when `-a` gave a
non-zero pid (error when it returns -1), else `unshare(flags)`.  `Except.ok`
carries the effective flag word. -/
def nsResolve (env : Env) (args : Args) : List Event × Except Outcome Int :=
  if args.attachpid != 0 then
    let r := attach env args.attachpid
    if r.1 == -1 then (r.2, Except.error (Outcome.exit 1)) else (r.2, Except.ok r.1)
  else
    if env.unshareOk then ([Event.unshareCall args.flags], Except.ok args.flags)
    else ([Event.unshareCall args.flags], Except.error (Outcome.exit 1))

/-- Lines 281-286: the no-fork PID report, guarded by
`assert(!(flags & CLONE_NEWPID))`. -/
def noForkReport (env : Env) (args : Args) (flags : Int) (dofork : Bool) :
    List Event × Option Outcome :=
  if args.printpid && !dofork then
    if (cAnd flags CLONE_NEWPID) != 0 then ([], some Outcome.assertFail)
    else ([Event.pidReport (pidReportBytes env.selfPid)], none)
  else ([], none)

/-- Line 290: `if (cgrouparg) cgroup(cgrouparg);`. -/
def cgroupStep (env : Env) (args : Args) : List Event × Option Outcome :=
  match args.cgrouparg with
  | some g => cgroup env g env.selfPid
  | none => ([], none)

/-- Lines 292-312: mount remediation, only in create mode with a mount
namespace in the flag word; `/sys` remount iff a network namespace flag is
present, `/proc` remount iff a PID namespace flag is present; each mount
failure aborts with exit 1. -/
def remediation (env : Env) (attachpid flags : Int) : List Event × Option Outcome :=
  if attachpid == 0 && (cAnd flags CLONE_NEWNS) != 0 then
    if !env.mountPrivOk then ([Event.mountPrivate], some (Outcome.exit 1))
    else
      let e1 := [Event.mountPrivate]
      if (cAnd flags CLONE_NEWNET) != 0 then
        if !env.mountSysOk then (e1 ++ [Event.mountSys], some (Outcome.exit 1))
        else
          let e2 := e1 ++ [Event.mountSys]
          if (cAnd flags CLONE_NEWPID) != 0 then
            if !env.mountProcOk then (e2 ++ [Event.mountProc], some (Outcome.exit 1))
            else (e2 ++ [Event.mountProc], none)
          else (e2, none)
      else
        if (cAnd flags CLONE_NEWPID) != 0 then
          if !env.mountProcOk then (e1 ++ [Event.mountProc], some (Outcome.exit 1))
          else (e1 ++ [Event.mountProc], none)
        else (e1, none)
  else ([], none)

/-- Lines 315-323: if `-r` parsed non-zero, the priority handed to
`sched_setscheduler` is `atoi(optarg)` re-read from the shared parser storage
at use time; `atoi(NULL)` (no argument-taking option ever seen) is undefined
behaviour. -/
def schedStep (env : Env) (args : Args) : List Event × Option Outcome :=
  if args.rtprio != 0 then
    match args.optargFinal with
    | none => ([], some Outcome.undefined)
    | some s =>
      if env.schedOk then ([Event.schedSet (atoi s)], none)
      else ([Event.schedSet (atoi s)], some (Outcome.exit 1))
  else ([], none)

/-- Lines 325-333: `execvp` of the command when one was given (fatal when the
exec fails), else print usage and return 0. -/
def execStep (env : Env) (args : Args) : List Event × Outcome :=
  if args.hasCommand then
    if env.execOk then ([Event.execCmd], Outcome.execed)
    else ([Event.execCmd], Outcome.exit 1)
  else ([Event.usagePrinted], Outcome.exit 0)

/-- The continuation run by the process that goes on towards `exec` (the child
when a fork happened, the sole process otherwise): no-fork PID report, cgroup
join, mount remediation, scheduling, final exec. -/
def contRun (env : Env) (args : Args) (flags : Int) (dofork : Bool) :
    List Event × Outcome :=
  match noForkReport env args flags dofork with
  | (e0, some o) => (e0, o)
  | (e0, none) =>
    match cgroupStep env args with
    | (e1, some o) => (e0 ++ e1, o)
    | (e1, none) =>
      match remediation env args.attachpid flags with
      | (e2, some o) => (e0 ++ e1 ++ e2, o)
      | (e2, none) =>
        match schedStep env args with
        | (e3, some o) => (e0 ++ e1 ++ e2 ++ e3, o)
        | (e3, none) =>
          let r := execStep env args
          (e0 ++ e1 ++ e2 ++ e3 ++ r.1, r.2)

/-- Result of a run of `main`: the continuing process's trace and outcome,
whether a child was forked off, and the parent's post-fork actions (its trace,
exit code, and whether it waited on the child). -/
structure MainResult where
  trace : List Event
  outcome : Outcome
  forked : Bool
  parentTrace : List Event
  parentExit : Option Int
  parentWaited : Bool
deriving Repr, DecidableEq

/-- Line 237-243: `dofork` is set iff the effective flag word contains
`CLONE_NEWPID`, or detach was requested while we are process-group leader. -/
def doforkOf (env : Env) (args : Args) (flags : Int) : Bool :=
  ((cAnd flags CLONE_NEWPID) != 0) || (args.detachtty && env.pgrpLeader)

/-- Lines 241-254: `detachtty` is cleared unless we are group leader, so
`setsid` runs iff detach was requested and we are group leader; otherwise
`setpgid(0,0)`. -/
def sessEvent (args : Args) (env : Env) : Event :=
  if args.detachtty && env.pgrpLeader then Event.setsidCall else Event.setpgidCall

/-- Body of `main` after namespace resolution succeeded with flag word `flags`
(lines 237-333): fork decision, session/process-group handling, fork with the
parent's PID report and conditional wait, then the continuation. -/
def afterNs (env : Env) (args : Args) (pre0 evs : List Event) (flags : Int) :
    MainResult :=
  let pre := pre0 ++ evs ++ [sessEvent args env]
  if doforkOf env args flags then
    match env.forkResult with
    | none =>
      ⟨pre ++ [Event.forkCall], Outcome.exit 1, false, [], none, false⟩
    | some childPid =>
      let pTrace :=
        (if args.printpid then [Event.pidReport (pidReportBytes childPid)] else []) ++
        (if (cAnd flags CLONE_NEWPID) != 0 then [Event.waitCall] else [])
      let c := contRun env args flags true
      ⟨pre ++ Event.forkCall :: c.1, c.2, true,
        pTrace, some 0, (cAnd flags CLONE_NEWPID) != 0⟩
  else
    let c := contRun env args flags false
    ⟨pre ++ c.1, c.2, false, [], none, false⟩

/-- Body of `main` from after option parsing: close fds if `-c`, resolve namespaces
(attach or unshare), then the lifecycle above. -/
def mainRun (env : Env) (args : Args) : MainResult :=
  let pre0 : List Event := if args.closefds then [Event.closeFDs] else []
  match nsResolve env args with
  | (evs, Except.error o) => ⟨pre0 ++ evs, o, false, [], none, false⟩
  | (evs, Except.ok flags) => afterNs env args pre0 evs flags

/-- A fully-succeeding oracle environment (target namespaces distinct from
the caller's). -/
def envOk : Env :=
  { nsStatTarget := fun _ => some (2, 5)
    nsStatSelf := fun _ => some (1, 3)
    nsOpenOk := fun _ => true
    nsSetnsOk := fun _ => true
    chrootOk := true
    chdirOk := true
    unshareOk := true
    forkResult := some 77
    waitStatus := 3
    cgroupOpenOk := fun _ => true
    mountPrivOk := true
    mountSysOk := true
    mountProcOk := true
    schedOk := true
    execOk := true
    selfPid := 100
    pgrpLeader := true }

/-- Plain invocation: no options, a command given. -/
def argsNone : Args :=
  { flags := 0, closefds := false, attachpid := 0, cgrouparg := none,
    detachtty := false, printpid := false, rtprio := 0, optargFinal := none,
    hasCommand := true }

def envC1 : Env := { envOk with nsOpenOk := fun s => !(s == "mnt") }

/-! ## Helper lemmas: which events each stage can emit -/

/-- Events namespace resolution can emit (attach loop or unshare). -/
def Event.isNsOp : Event → Bool
  | Event.openNs _ => true
  | Event.setnsNs _ => true
  | Event.chrootCall _ => true
  | Event.chdirCwd => true
  | Event.unshareCall _ => true
  | _ => false

/-- Events the cgroup joiner can emit. -/
def Event.isCgroupOp : Event → Bool
  | Event.cgroupOpen _ _ => true
  | Event.cgroupWrite _ _ _ => true
  | Event.diag _ => true
  | _ => false

/-- The three mount remediation operations. -/
def Event.isMountRem : Event → Bool
  | Event.mountPrivate => true
  | Event.mountSys => true
  | Event.mountProc => true
  | _ => false

/-- Events of the final exec/usage step. -/
def Event.isExecOp : Event → Bool
  | Event.execCmd => true
  | Event.usagePrinted => true
  | _ => false

theorem attachns_shapes (env : Env) (ns : NamespaceK) :
    ∀ e ∈ (attachns env ns).2, e.isNsOp = true := by
  intro e he
  unfold attachns at he
  split_ifs at he <;> simp_all [Event.isNsOp] <;>
    rcases he with rfl | rfl <;> rfl

theorem attachLoop_shapes (env : Env) (pid : Int) :
    ∀ (l : List NamespaceK) (flag : Int), ∀ e ∈ (attachLoop env pid l flag).2,
      e.isNsOp = true := by
  intro l
  induction l with
  | nil =>
    intro flag e he
    unfold attachLoop at he
    split_ifs at he <;> simp_all <;> rfl
  | cons ns rest ih =>
    intro flag e he
    have hns := attachns_shapes env ns
    rw [attachLoop] at he
    by_cases hlt : (attachns env ns).1 < 0 <;>
      by_cases hmnt : (ns.type == CLONE_NEWNS) = true <;>
      by_cases hch : env.chrootOk = true <;>
      simp [hlt, hmnt, hch] at he <;>
      (repeat'
        first
          | exact hns e he
          | (subst he; rfl)
          | (rw [he]; rfl)
          | exact ih _ e he
          | (rcases he with he | he))

theorem nsResolve_shapes (env : Env) (args : Args) :
    ∀ e ∈ (nsResolve env args).1, e.isNsOp = true := by
  intro e he
  unfold nsResolve attach at he
  by_cases h1 : (args.attachpid != 0) = true
  · by_cases h2 : ((attachLoop env args.attachpid namespacesL 0).1 == -1) = true <;>
      simp [h1, h2] at he <;>
      exact attachLoop_shapes env args.attachpid namespacesL 0 e he
  · by_cases h3 : env.unshareOk = true <;>
      simp [h1, h3] at he <;>
      (first | (subst he; rfl) | (rw [he]; rfl))

theorem noForkReport_mem (env : Env) (args : Args) (flags : Int) (dofork : Bool) :
    ∀ e ∈ (noForkReport env args flags dofork).1,
      e = Event.pidReport (pidReportBytes env.selfPid) ∧
      args.printpid = true ∧ dofork = false ∧ cAnd flags CLONE_NEWPID = 0 := by
  intro e he
  unfold noForkReport at he
  split_ifs at he <;> simp_all

theorem cgroup_shapes (env : Env) (g : String) (pid : Nat) :
    ∀ e ∈ (cgroup env g pid).1, e.isCgroupOp = true := by
  intro e he
  unfold cgroup cgroupController at he
  split_ifs at he <;>
    simp only [List.mem_append, List.mem_cons, List.mem_singleton,
      List.not_mem_nil, or_false, false_or] at he <;>
    (repeat'
      first
        | (subst he; rfl)
        | (rcases he with he | he))

theorem cgroupStep_shapes (env : Env) (args : Args) :
    ∀ e ∈ (cgroupStep env args).1, e.isCgroupOp = true := by
  intro e he
  unfold cgroupStep at he
  cases h : args.cgrouparg with
  | none => rw [h] at he; simp at he
  | some g => rw [h] at he; exact cgroup_shapes env g env.selfPid e he

theorem remediation_shapes (env : Env) (ap flags : Int) :
    ∀ e ∈ (remediation env ap flags).1, e.isMountRem = true := by
  intro e he
  unfold remediation at he
  split_ifs at he <;>
    simp only [List.mem_append, List.mem_cons, List.mem_singleton,
      List.not_mem_nil, or_false, false_or] at he <;>
    (repeat'
      first
        | (subst he; rfl)
        | (rcases he with he | he))

theorem remediation_guard (env : Env) (ap flags : Int) :
    ∀ e ∈ (remediation env ap flags).1, ap = 0 ∧ cAnd flags CLONE_NEWNS ≠ 0 := by
  intro e he
  unfold remediation at he
  split_ifs at he <;> simp_all

theorem schedStep_mem (env : Env) (args : Args) :
    ∀ e ∈ (schedStep env args).1,
      ∃ s, args.optargFinal = some s ∧ e = Event.schedSet (atoi s) ∧ args.rtprio ≠ 0 := by
  intro e he
  unfold schedStep at he
  by_cases h1 : (args.rtprio != 0) = true
  · rw [if_pos h1] at he
    cases h : args.optargFinal with
    | none => rw [h] at he; simp at he
    | some s =>
      rw [h] at he
      by_cases h2 : env.schedOk = true <;> simp [h2] at he <;>
        exact ⟨s, rfl, he, by simpa using h1⟩
  · rw [if_neg h1] at he; simp at he

theorem execStep_shapes (env : Env) (args : Args) :
    ∀ e ∈ (execStep env args).1, e.isExecOp = true := by
  intro e he
  unfold execStep at he
  split_ifs at he <;> simp_all <;> rfl

theorem contRun_mem (env : Env) (args : Args) (flags : Int) (dofork : Bool) :
    ∀ e ∈ (contRun env args flags dofork).1,
      e ∈ (noForkReport env args flags dofork).1 ∨
      e ∈ (cgroupStep env args).1 ∨
      e ∈ (remediation env args.attachpid flags).1 ∨
      e ∈ (schedStep env args).1 ∨
      e ∈ (execStep env args).1 := by
  intro e he
  unfold contRun at he
  rcases h0 : noForkReport env args flags dofork with ⟨e0, o0⟩
  rcases h1 : cgroupStep env args with ⟨e1, o1⟩
  rcases h2 : remediation env args.attachpid flags with ⟨e2, o2⟩
  rcases h3 : schedStep env args with ⟨e3, o3⟩
  rcases h4 : execStep env args with ⟨e4, o4⟩
  rw [h0, h1, h2, h3, h4] at he
  cases o0 <;> cases o1 <;> cases o2 <;> cases o3 <;> simp_all <;> tauto

/-! ## Helper lemmas: outcomes of each stage -/

theorem cgroup_out (env : Env) (g : String) (pid : Nat) :
    ∀ o, (cgroup env g pid).2 = some o → o = Outcome.exit 1 := by
  intro o ho
  unfold cgroup at ho
  split_ifs at ho <;> simp_all

theorem cgroupStep_out (env : Env) (args : Args) :
    ∀ o, (cgroupStep env args).2 = some o → o = Outcome.exit 1 := by
  intro o ho
  unfold cgroupStep at ho
  cases h : args.cgrouparg with
  | none => rw [h] at ho; simp at ho
  | some g => rw [h] at ho; exact cgroup_out env g env.selfPid o ho

theorem remediation_out (env : Env) (ap flags : Int) :
    ∀ o, (remediation env ap flags).2 = some o → o = Outcome.exit 1 := by
  intro o ho
  unfold remediation at ho
  split_ifs at ho <;> simp_all

theorem schedStep_out (env : Env) (args : Args) :
    ∀ o, (schedStep env args).2 = some o → o = Outcome.exit 1 ∨ o = Outcome.undefined := by
  intro o ho
  unfold schedStep at ho
  by_cases h1 : (args.rtprio != 0) = true
  · rw [if_pos h1] at ho
    cases h : args.optargFinal with
    | none => rw [h] at ho; simp_all
    | some s =>
      rw [h] at ho
      by_cases h2 : env.schedOk = true <;> simp [h2] at ho <;> simp [ho]
  · rw [if_neg h1] at ho; simp at ho

theorem execStep_out (env : Env) (args : Args) :
    (execStep env args).2 = Outcome.execed ∨ (execStep env args).2 = Outcome.exit 1 ∨
    (execStep env args).2 = Outcome.exit 0 := by
  unfold execStep
  split_ifs <;> simp

theorem noForkReport_out (env : Env) (args : Args) (flags : Int) (dofork : Bool) :
    ∀ o, (noForkReport env args flags dofork).2 = some o →
      o = Outcome.assertFail ∧ args.printpid = true ∧ dofork = false ∧
      cAnd flags CLONE_NEWPID ≠ 0 := by
  intro o ho
  unfold noForkReport at ho
  split_ifs at ho <;> simp_all

theorem contRun_out (env : Env) (args : Args) (flags : Int) (dofork : Bool)
    (h : dofork = true ∨ cAnd flags CLONE_NEWPID = 0) :
    (contRun env args flags dofork).2 ≠ Outcome.assertFail := by
  unfold contRun
  rcases h0 : noForkReport env args flags dofork with ⟨e0, o0⟩
  rcases h1 : cgroupStep env args with ⟨e1, o1⟩
  rcases h2 : remediation env args.attachpid flags with ⟨e2, o2⟩
  rcases h3 : schedStep env args with ⟨e3, o3⟩
  rcases h4 : execStep env args with ⟨e4, o4⟩
  have k0 := noForkReport_out env args flags dofork
  have k1 := cgroupStep_out env args
  have k2 := remediation_out env args.attachpid flags
  have k3 := schedStep_out env args
  have k4 := execStep_out env args
  rw [h0] at k0
  rw [h1] at k1
  rw [h2] at k2
  rw [h3] at k3
  rw [h4] at k4
  cases o0 with
  | some o =>
    rcases k0 o rfl with ⟨rfl, hp, hd, hf⟩
    rcases h with h | h
    · rw [h] at hd; exact absurd hd (by simp)
    · exact absurd h hf
  | none =>
    cases o1 with
    | some o => have := k1 o rfl; simp_all
    | none =>
      cases o2 with
      | some o => have := k2 o rfl; simp_all
      | none =>
        cases o3 with
        | some o => have := k3 o rfl; simp_all; rcases this with rfl | rfl <;> simp_all
        | none => simp_all; rcases k4 with h | h | h <;> simp_all

theorem mainRun_ok (env : Env) (args : Args) (evs : List Event) (flags : Int)
    (h : nsResolve env args = (evs, Except.ok flags)) :
    mainRun env args =
      afterNs env args (if args.closefds then [Event.closeFDs] else []) evs flags := by
  unfold mainRun
  rw [h]

theorem mainRun_err (env : Env) (args : Args) (evs : List Event) (o : Outcome)
    (h : nsResolve env args = (evs, Except.error o)) :
    mainRun env args =
      ⟨(if args.closefds then [Event.closeFDs] else []) ++ evs, o, false, [], none, false⟩ := by
  unfold mainRun
  rw [h]

theorem nsResolve_err (env : Env) (args : Args) (evs : List Event) (o : Outcome)
    (h : nsResolve env args = (evs, Except.error o)) : o = Outcome.exit 1 := by
  unfold nsResolve at h
  by_cases h1 : (args.attachpid != 0) = true <;> simp [h1] at h
  · by_cases h2 : (attach env args.attachpid).1 = -1 <;> simp [h2] at h <;> simp_all
  · by_cases h3 : env.unshareOk = true <;> simp [h3] at h <;> simp_all

/-! ## Helper lemmas: the fork decision and the three shapes of `afterNs` -/

theorem doforkOf_iff (env : Env) (args : Args) (flags : Int) :
    doforkOf env args flags = true ↔
      cAnd flags CLONE_NEWPID ≠ 0 ∨ (args.detachtty = true ∧ env.pgrpLeader = true) := by
  simp [doforkOf, bne_iff_ne]

theorem afterNs_eq_noFork (env : Env) (args : Args) (pre0 evs : List Event) (flags : Int)
    (h : doforkOf env args flags = false) :
    afterNs env args pre0 evs flags =
      ⟨(pre0 ++ evs ++ [sessEvent args env]) ++ (contRun env args flags false).1,
        (contRun env args flags false).2, false, [], none, false⟩ := by
  unfold afterNs
  rw [h]
  simp

theorem afterNs_eq_forkFail (env : Env) (args : Args) (pre0 evs : List Event) (flags : Int)
    (hd : doforkOf env args flags = true) (hf : env.forkResult = none) :
    afterNs env args pre0 evs flags =
      ⟨(pre0 ++ evs ++ [sessEvent args env]) ++ [Event.forkCall],
        Outcome.exit 1, false, [], none, false⟩ := by
  unfold afterNs
  rw [hd, hf]
  simp

theorem afterNs_eq_fork (env : Env) (args : Args) (pre0 evs : List Event) (flags : Int)
    (c : Nat) (hd : doforkOf env args flags = true) (hf : env.forkResult = some c) :
    afterNs env args pre0 evs flags =
      ⟨(pre0 ++ evs ++ [sessEvent args env]) ++ Event.forkCall :: (contRun env args flags true).1,
        (contRun env args flags true).2, true,
        (if args.printpid then [Event.pidReport (pidReportBytes c)] else []) ++
          (if (cAnd flags CLONE_NEWPID) != 0 then [Event.waitCall] else []),
        some 0, (cAnd flags CLONE_NEWPID) != 0⟩ := by
  unfold afterNs
  rw [hd, hf]
  simp

/-! ## Helper lemmas: events that the continuation and resolution never emit -/

theorem contRun_not_mem (env : Env) (args : Args) (flags : Int) (dofork : Bool) (e : Event)
    (h1 : e.isCgroupOp = false) (h2 : e.isMountRem = false) (h3 : e.isExecOp = false)
    (h4 : ∀ bs, e ≠ Event.pidReport bs) (h5 : ∀ q, e ≠ Event.schedSet q) :
    e ∉ (contRun env args flags dofork).1 := by
  intro hin
  rcases contRun_mem env args flags dofork e hin with h | h | h | h | h
  · exact h4 _ (noForkReport_mem env args flags dofork e h).1
  · have := cgroupStep_shapes env args e h
    simp [h1] at this
  · have := remediation_shapes env args.attachpid flags e h
    simp [h2] at this
  · rcases schedStep_mem env args e h with ⟨q, _, he, _⟩
    exact h5 _ he
  · have := execStep_shapes env args e h
    simp [h3] at this

theorem nsResolve_not_mem (env : Env) (args : Args) (e : Event)
    (h : e.isNsOp = false) : e ∉ (nsResolve env args).1 := by
  intro hin
  have := nsResolve_shapes env args e hin
  simp [h] at this

theorem nsResolve_create (env : Env) (args : Args)
    (h1 : args.attachpid = 0) (h2 : env.unshareOk = true) :
    nsResolve env args = ([Event.unshareCall args.flags], Except.ok args.flags) := by
  unfold nsResolve
  simp [h1, h2]

/-- The session step is `setsid` exactly when detach was requested while
being process-group leader, else `setpgid`. -/
theorem sessEvent_cases (args : Args) (env : Env) :
    ((args.detachtty && env.pgrpLeader) = true ∧ sessEvent args env = Event.setsidCall) ∨
    ((args.detachtty && env.pgrpLeader) = false ∧ sessEvent args env = Event.setpgidCall) := by
  unfold sessEvent
  by_cases h : (args.detachtty && env.pgrpLeader) = true <;> simp [h]

theorem forkCall_mem_afterNs (env : Env) (args : Args) (pre0 evs : List Event) (flags : Int)
    (hpre0 : Event.forkCall ∉ pre0) (hevs : Event.forkCall ∉ evs) :
    (Event.forkCall ∈ (afterNs env args pre0 evs flags).trace ↔
      doforkOf env args flags = true) := by
  have hsess : sessEvent args env ≠ Event.forkCall := by
    rcases sessEvent_cases args env with ⟨_, h⟩ | ⟨_, h⟩ <;> simp [h]
  by_cases hd : doforkOf env args flags = true
  · cases hf : env.forkResult with
    | none =>
      rw [afterNs_eq_forkFail env args pre0 evs flags hd hf]
      simp [hd]
    | some c =>
      rw [afterNs_eq_fork env args pre0 evs flags c hd hf]
      simp [hd]
  · have hd' : doforkOf env args flags = false := by simpa using hd
    rw [afterNs_eq_noFork env args pre0 evs flags hd']
    have hcont := contRun_not_mem env args flags false Event.forkCall rfl rfl rfl
      (by intro bs h; cases h) (by intro q h; cases h)
    simp only [hd']
    simp [List.mem_append, hpre0, hevs, hcont]
    intro h
    exact hsess h.symm

theorem setsid_mem_afterNs (env : Env) (args : Args) (pre0 evs : List Event) (flags : Int)
    (hpre0 : Event.setsidCall ∉ pre0) (hevs : Event.setsidCall ∉ evs) :
    (Event.setsidCall ∈ (afterNs env args pre0 evs flags).trace ↔
      (args.detachtty && env.pgrpLeader) = true) := by
  have hcont : ∀ d, Event.setsidCall ∉ (contRun env args flags d).1 := fun d =>
    contRun_not_mem env args flags d Event.setsidCall rfl rfl rfl
      (by intro bs h; cases h) (by intro q h; cases h)
  rcases sessEvent_cases args env with ⟨hb, hs⟩ | ⟨hb, hs⟩ <;>
    (by_cases hd : doforkOf env args flags = true
     · cases hf : env.forkResult with
       | none =>
         rw [afterNs_eq_forkFail env args pre0 evs flags hd hf]
         simp [hb, hs, hpre0, hevs]
       | some c =>
         rw [afterNs_eq_fork env args pre0 evs flags c hd hf]
         simp [hb, hs, hpre0, hevs, hcont]
     · have hd' : doforkOf env args flags = false := by simpa using hd
       rw [afterNs_eq_noFork env args pre0 evs flags hd']
       simp [hb, hs, hpre0, hevs, hcont])

theorem setpgid_mem_afterNs (env : Env) (args : Args) (pre0 evs : List Event) (flags : Int)
    (hpre0 : Event.setpgidCall ∉ pre0) (hevs : Event.setpgidCall ∉ evs) :
    (Event.setpgidCall ∈ (afterNs env args pre0 evs flags).trace ↔
      (args.detachtty && env.pgrpLeader) = false) := by
  have hcont : ∀ d, Event.setpgidCall ∉ (contRun env args flags d).1 := fun d =>
    contRun_not_mem env args flags d Event.setpgidCall rfl rfl rfl
      (by intro bs h; cases h) (by intro q h; cases h)
  rcases sessEvent_cases args env with ⟨hb, hs⟩ | ⟨hb, hs⟩ <;>
    (by_cases hd : doforkOf env args flags = true
     · cases hf : env.forkResult with
       | none =>
         rw [afterNs_eq_forkFail env args pre0 evs flags hd hf]
         simp [hb, hs, hpre0, hevs]
       | some c =>
         rw [afterNs_eq_fork env args pre0 evs flags c hd hf]
         simp [hb, hs, hpre0, hevs, hcont]
     · have hd' : doforkOf env args flags = false := by simpa using hd
       rw [afterNs_eq_noFork env args pre0 evs flags hd']
       simp [hb, hs, hpre0, hevs, hcont])

/-! ## Claim theorems -/

/-- C10: every execution that reaches the no-fork PID-report branch has a flag
word without `CLONE_NEWPID` (PID-namespace creation always forces the fork
path), so the `assert(!(flags & CLONE_NEWPID))` guarding that branch never
fails: no run of `main`, in any environment and with any parsed arguments,
ends in an assertion failure. -/
theorem C10_assert_never_fails (env : Env) (args : Args) :
    ((mainRun env args).outcome == Outcome.assertFail) = false := by
  rcases hres : nsResolve env args with ⟨evs, res⟩
  cases res with
  | error o =>
    rw [mainRun_err env args evs o hres]
    rw [nsResolve_err env args evs o hres]
    simp
  | ok flags =>
    rw [mainRun_ok env args evs flags hres]
    by_cases hd : doforkOf env args flags = true
    · cases hf : env.forkResult with
      | none =>
        rw [afterNs_eq_forkFail env args _ evs flags hd hf]
        simp
      | some c =>
        rw [afterNs_eq_fork env args _ evs flags c hd hf]
        have := contRun_out env args flags true (Or.inl rfl)
        simpa using this
    · have hd' : doforkOf env args flags = false := by simpa using hd
      rw [afterNs_eq_noFork env args _ evs flags hd']
      have hpid : cAnd flags CLONE_NEWPID = 0 := by
        by_contra hne
        exact hd ((doforkOf_iff env args flags).mpr (Or.inl hne))
      have := contRun_out env args flags false (Or.inr hpid)
      simpa using this

/-- C5: in create mode (no `-a`, `unshare` succeeding), a `fork()` call is
performed iff the flag word contains `CLONE_NEWPID`, or terminal detachment
was requested while the process is currently process-group leader; in
particular, requesting detachment while not group leader (and no PID
namespace) performs no fork and only moves the process into a new process
group (`setpgid`, no `setsid`). -/
theorem C5_fork_iff (env : Env) (args : Args)
    (h1 : args.attachpid = 0) (h2 : env.unshareOk = true) :
    (Event.forkCall ∈ (mainRun env args).trace ↔
      (cAnd args.flags CLONE_NEWPID ≠ 0 ∨
        (args.detachtty = true ∧ env.pgrpLeader = true))) ∧
    ((args.detachtty = true ∧ env.pgrpLeader = false ∧ cAnd args.flags CLONE_NEWPID = 0) →
      Event.forkCall ∉ (mainRun env args).trace ∧
      Event.setpgidCall ∈ (mainRun env args).trace ∧
      Event.setsidCall ∉ (mainRun env args).trace) := by
  have hres := nsResolve_create env args h1 h2
  rw [mainRun_ok env args _ args.flags hres]
  have hpre0 : ∀ e : Event, e ≠ Event.closeFDs →
      e ∉ (if args.closefds then [Event.closeFDs] else []) := by
    intro e he
    by_cases hc : args.closefds = true <;> simp [hc, he]
  have hevs : ∀ e : Event, e.isNsOp = false → e ∉ [Event.unshareCall args.flags] := by
    intro e he
    simp
    intro h
    rw [h] at he
    cases he
  constructor
  · rw [forkCall_mem_afterNs env args _ _ args.flags
      (hpre0 Event.forkCall (by decide)) (hevs Event.forkCall rfl)]
    rw [doforkOf_iff]
  · rintro ⟨hdet, hlead, hflag⟩
    have hd : doforkOf env args args.flags = false := by
      unfold doforkOf
      simp [hdet, hlead, hflag]
    refine ⟨?_, ?_, ?_⟩
    · rw [forkCall_mem_afterNs env args _ _ args.flags
        (hpre0 Event.forkCall (by decide)) (hevs Event.forkCall rfl)]
      simp [hd]
    · rw [setpgid_mem_afterNs env args _ _ args.flags
        (hpre0 Event.setpgidCall (by decide)) (hevs Event.setpgidCall rfl)]
      simp [hlead]
    · rw [setsid_mem_afterNs env args _ _ args.flags
        (hpre0 Event.setsidCall (by decide)) (hevs Event.setsidCall rfl)]
      simp [hlead]

/-- Arguments `-d` only (detach requested, no namespace flags, a command). -/
def argsDetachOnly : Args :=
  { flags := 0, closefds := false, attachpid := 0, cgrouparg := none,
    detachtty := true, printpid := false, rtprio := 0, optargFinal := none,
    hasCommand := true }

/-- The environment of a process that is not its process-group leader. -/
def envNoLead : Env := { envOk with pgrpLeader := false }

theorem C5_witness :
    Event.forkCall ∉ (mainRun envNoLead argsDetachOnly).trace ∧
    Event.setpgidCall ∈ (mainRun envNoLead argsDetachOnly).trace ∧
    Event.setsidCall ∉ (mainRun envNoLead argsDetachOnly).trace :=
  (C5_fork_iff envNoLead argsDetachOnly (by decide) (by decide)).2
    ⟨by decide, by decide, by decide⟩

/-- Arguments `-d -P` (detach requested together with PID-namespace creation,
which forces a fork). -/
def argsC3 : Args := { argsDetachOnly with flags := cOr CLONE_NEWPID CLONE_NEWNS }

/-- C3 counterexample: with `-d -P`, run by a process that is not its
process-group leader, detachment is requested and a fork happens (for the PID
namespace), yet no new session is started: the code zeroes `detachtty` when
the process is not group leader and calls `setpgid`, not `setsid`.  This
refutes the claim that a session is started whenever detachment was requested
and a fork is happening for either reason. -/
theorem C3_counterexample :
    (argsC3.detachtty = true ∧
      Event.forkCall ∈ (mainRun envNoLead argsC3).trace) ∧
    Event.setsidCall ∉ (mainRun envNoLead argsC3).trace ∧
    Event.setpgidCall ∈ (mainRun envNoLead argsC3).trace := by
  refine ⟨⟨by decide, by decide⟩, by decide, by decide⟩

/-- C3 (amended): whenever namespace resolution succeeds, a new session is
started iff terminal detachment was requested and the process is currently its
process-group leader (in which case a fork also happens); in every other case
-- including a fork forced only by PID-namespace creation -- no session is
started and the process only moves itself into a new process group. -/
theorem C3_session_iff (env : Env) (args : Args) (evs : List Event) (flags0 : Int)
    (h : nsResolve env args = (evs, Except.ok flags0)) :
    (Event.setsidCall ∈ (mainRun env args).trace ↔
      (args.detachtty = true ∧ env.pgrpLeader = true)) ∧
    (¬(args.detachtty = true ∧ env.pgrpLeader = true) →
      Event.setpgidCall ∈ (mainRun env args).trace) := by
  rw [mainRun_ok env args evs flags0 h]
  have hevs : ∀ e : Event, e.isNsOp = false → e ∉ evs := by
    intro e he hin
    have hsh := nsResolve_shapes env args e
    rw [h] at hsh
    simp at hsh
    have := hsh hin
    rw [he] at this
    cases this
  have hpre0 : ∀ e : Event, e ≠ Event.closeFDs →
      e ∉ (if args.closefds then [Event.closeFDs] else []) := by
    intro e he
    by_cases hc : args.closefds = true <;> simp [hc, he]
  constructor
  · rw [setsid_mem_afterNs env args _ _ flags0
      (hpre0 Event.setsidCall (by decide)) (hevs Event.setsidCall rfl)]
    simp [Bool.and_eq_true]
  · intro hn
    rw [setpgid_mem_afterNs env args _ _ flags0
      (hpre0 Event.setpgidCall (by decide)) (hevs Event.setpgidCall rfl)]
    rcases Bool.eq_false_or_eq_true (args.detachtty && env.pgrpLeader) with hb | hb
    · rw [Bool.and_eq_true] at hb
      exact absurd ⟨hb.1, hb.2⟩ hn
    · exact hb

theorem C3_witness :
    (Event.setsidCall ∈ (mainRun envOk argsDetachOnly).trace ↔
      (argsDetachOnly.detachtty = true ∧ envOk.pgrpLeader = true)) ∧
    (¬(argsDetachOnly.detachtty = true ∧ envOk.pgrpLeader = true) →
      Event.setpgidCall ∈ (mainRun envOk argsDetachOnly).trace) :=
  C3_session_iff envOk argsDetachOnly [Event.unshareCall 0] 0 rfl

theorem nsResolve_ok_shapes (env : Env) (args : Args) (evs : List Event)
    (r : Except Outcome Int) (h : nsResolve env args = (evs, r)) :
    ∀ e ∈ evs, e.isNsOp = true := by
  intro e hin
  have hsh := nsResolve_shapes env args e
  rw [h] at hsh
  exact hsh hin

/-- C4: requesting PID-namespace creation (create mode with `unshare` and
`fork` succeeding) results in exactly one fork call; the parent waits on the
child, exits 0 regardless of the child's or the command's status, and never
proceeds to exec; while a fork without `CLONE_NEWPID` (detach-from-tty reason
only) makes the parent exit 0 without waiting. -/
theorem C4_pidns_fork_wait (env : Env) (args : Args) (c : Nat)
    (h1 : args.attachpid = 0) (h2 : env.unshareOk = true)
    (h3 : env.forkResult = some c) :
    (cAnd args.flags CLONE_NEWPID ≠ 0 →
      (mainRun env args).trace.count Event.forkCall = 1 ∧
      (mainRun env args).forked = true ∧
      (mainRun env args).parentWaited = true ∧
      Event.waitCall ∈ (mainRun env args).parentTrace ∧
      (mainRun env args).parentExit = some 0 ∧
      Event.execCmd ∉ (mainRun env args).parentTrace) ∧
    ((cAnd args.flags CLONE_NEWPID = 0 ∧ args.detachtty = true ∧ env.pgrpLeader = true) →
      (mainRun env args).forked = true ∧
      (mainRun env args).parentWaited = false ∧
      Event.waitCall ∉ (mainRun env args).parentTrace ∧
      (mainRun env args).parentExit = some 0) := by
  have hres := nsResolve_create env args h1 h2
  rw [mainRun_ok env args _ args.flags hres]
  constructor
  · intro hpid
    have hd : doforkOf env args args.flags = true :=
      (doforkOf_iff env args args.flags).mpr (Or.inl hpid)
    rw [afterNs_eq_fork env args _ _ args.flags c hd h3]
    have hwait : (cAnd args.flags CLONE_NEWPID != 0) = true := by simpa using hpid
    refine ⟨?_, rfl, by simp [hwait], ?_, rfl, ?_⟩
    · have k1 : (if args.closefds then [Event.closeFDs] else []).count Event.forkCall = 0 := by
        by_cases hc : args.closefds = true <;> simp [hc]
      have k3 : ([sessEvent args env]).count Event.forkCall = 0 := by
        rcases sessEvent_cases args env with ⟨_, hs⟩ | ⟨_, hs⟩ <;> simp [hs]
      have k4 : ((contRun env args args.flags true).1).count Event.forkCall = 0 :=
        List.count_eq_zero.mpr (contRun_not_mem env args args.flags true Event.forkCall
          rfl rfl rfl (by intro bs hh; cases hh) (by intro q hh; cases hh))
      have hs : sessEvent args env ≠ Event.forkCall := by
        rcases sessEvent_cases args env with ⟨_, h⟩ | ⟨_, h⟩ <;> simp [h]
      simp [List.count_append, List.count_cons, k1, k3, k4, hs, Ne.symm hs]
    · simp [hwait]
    · by_cases hp : args.printpid = true <;> simp [hp, hwait]
  · rintro ⟨hflag, hdet, hlead⟩
    have hd : doforkOf env args args.flags = true :=
      (doforkOf_iff env args args.flags).mpr (Or.inr ⟨hdet, hlead⟩)
    rw [afterNs_eq_fork env args _ _ args.flags c hd h3]
    have hwait : (cAnd args.flags CLONE_NEWPID != 0) = false := by simpa using hflag
    refine ⟨rfl, by simp [hwait], ?_, rfl⟩
    by_cases hp : args.printpid = true <;> simp [hp, hwait]

/-- Arguments `-P` (new PID namespace, implying a new mount namespace). -/
def argsPidns : Args := { argsNone with flags := cOr CLONE_NEWPID CLONE_NEWNS }

theorem C4_witness :
    (mainRun envOk argsPidns).trace.count Event.forkCall = 1 ∧
    (mainRun envOk argsPidns).parentWaited = true ∧
    (mainRun envOk argsPidns).parentExit = some 0 :=
  have h := (C4_pidns_fork_wait envOk argsPidns 77 rfl rfl rfl).1 (by decide)
  ⟨h.1, h.2.2.1, h.2.2.2.2.1⟩

/-! ## Decimal digit facts for the PID report -/

theorem decDigitsRevFuel_lt (fuel : Nat) :
    ∀ (n : Nat), ∀ d ∈ decDigitsRevFuel fuel n, d < 10 := by
  induction fuel with
  | zero =>
    intro n d hd
    cases n <;> simp [decDigitsRevFuel] at hd
  | succ fuel ih =>
    intro n d hd
    cases n with
    | zero => simp [decDigitsRevFuel] at hd
    | succ m =>
      rw [decDigitsRevFuel] at hd
      rcases List.mem_cons.mp hd with rfl | hd
      · exact Nat.mod_lt _ (by decide)
      · exact ih _ d hd

theorem decBytes_range (p : Nat) : ∀ b ∈ decBytes p, 48 ≤ b ∧ b ≤ 57 := by
  intro b hb
  unfold decBytes at hb
  by_cases h : (p == 0) = true <;> simp [h] at hb
  · omega
  · rcases hb with ⟨d, hd, rfl⟩
    have := decDigitsRevFuel_lt p p d hd
    omega

theorem decDigitsRevFuel_foldr (fuel : Nat) :
    ∀ n ≤ fuel, (decDigitsRevFuel fuel n).foldr (fun d acc => d + 10 * acc) 0 = n := by
  induction fuel with
  | zero =>
    intro n hn
    have : n = 0 := Nat.le_zero.mp hn
    subst this
    simp [decDigitsRevFuel]
  | succ fuel ih =>
    intro n hn
    cases n with
    | zero => simp [decDigitsRevFuel]
    | succ m =>
      rw [decDigitsRevFuel]
      simp only [List.foldr_cons]
      rw [ih ((m + 1) / 10) (by
        have := Nat.div_lt_self (Nat.succ_pos m) (by decide : 1 < 10)
        omega)]
      exact Nat.mod_add_div (m + 1) 10

theorem decDigitsRev_foldr (n : Nat) :
    (decDigitsRev n).foldr (fun d acc => d + 10 * acc) 0 = n :=
  decDigitsRevFuel_foldr n n Nat.le.refl

/-- Everything the parent can do after the fork: optionally emit the child's
PID report, optionally wait. -/
theorem parentTrace_mem (env : Env) (args : Args) (pre0 evs : List Event) (flags : Int) :
    ∀ e ∈ (afterNs env args pre0 evs flags).parentTrace,
      (∃ c, env.forkResult = some c ∧ args.printpid = true ∧
        e = Event.pidReport (pidReportBytes c)) ∨ e = Event.waitCall := by
  intro e hin
  by_cases hd : doforkOf env args flags = true
  · cases hf : env.forkResult with
    | none =>
      rw [afterNs_eq_forkFail env args pre0 evs flags hd hf] at hin
      simp at hin
    | some c =>
      rw [afterNs_eq_fork env args pre0 evs flags c hd hf] at hin
      simp only [List.mem_append] at hin
      rcases hin with hin | hin
      · by_cases hp : args.printpid = true
        · rw [if_pos hp] at hin
          simp at hin
          exact Or.inl ⟨c, rfl, hp, hin⟩
        · rw [if_neg hp] at hin
          simp at hin
      · by_cases hw : (cAnd flags CLONE_NEWPID != 0) = true
        · rw [if_pos hw] at hin
          simp at hin
          exact Or.inr hin
        · rw [if_neg hw] at hin
          simp at hin
  · have hd' : doforkOf env args flags = false := by simpa using hd
    rw [afterNs_eq_noFork env args pre0 evs flags hd'] at hin
    simp at hin

/-- Generic exclusion from the pre-fork part of the trace. -/
theorem not_mem_pre (env : Env) (args : Args) (evs : List Event)
    (hevshape : ∀ e ∈ evs, e.isNsOp = true) (e : Event)
    (h1 : e ≠ Event.closeFDs) (h2 : e.isNsOp = false)
    (h3 : e ≠ Event.setsidCall) (h4 : e ≠ Event.setpgidCall) :
    e ∉ ((if args.closefds then [Event.closeFDs] else []) ++ evs ++ [sessEvent args env]) := by
  intro hin
  simp only [List.mem_append, List.mem_singleton] at hin
  rcases hin with (hin | hin) | hin
  · by_cases hc : args.closefds = true
    · rw [if_pos hc] at hin
      simp at hin
      exact h1 hin
    · rw [if_neg hc] at hin
      simp at hin
  · have := hevshape _ hin
    simp [h2] at this
  · rcases sessEvent_cases args env with ⟨_, hx⟩ | ⟨_, hx⟩
    · rw [hx] at hin
      exact h3 hin
    · rw [hx] at hin
      exact h4 hin

/-- When a fork happened the continuation's no-fork report is skipped, so the
child emits no PID report at all. -/
theorem contRun_no_report_fork (env : Env) (args : Args) (flags : Int) :
    ∀ bs, Event.pidReport bs ∉ (contRun env args flags true).1 := by
  intro bs hin
  rcases contRun_mem env args flags true _ hin with hx | hx | hx | hx | hx
  · exact absurd (noForkReport_mem env args flags true _ hx).2.2.1 (by simp)
  · have := cgroupStep_shapes env args _ hx
    simp [Event.isCgroupOp] at this
  · have := remediation_shapes env args.attachpid flags _ hx
    simp [Event.isMountRem] at this
  · rcases schedStep_mem env args _ hx with ⟨q, _, he, _⟩
    simp at he
  · have := execStep_shapes env args _ hx
    simp [Event.isExecOp] at this

/-- Without a fork, any PID report in the continuation carries the process's
own pid and implies `-p` was given. -/
theorem contRun_report_noFork (env : Env) (args : Args) (flags : Int) :
    ∀ bs, Event.pidReport bs ∈ (contRun env args flags false).1 →
      bs = pidReportBytes env.selfPid ∧ args.printpid = true := by
  intro bs hin
  rcases contRun_mem env args flags false _ hin with hx | hx | hx | hx | hx
  · have hb := noForkReport_mem env args flags false _ hx
    have : bs = pidReportBytes env.selfPid := by
      have h1 := hb.1
      injection h1
    exact ⟨this, hb.2.1⟩
  · have := cgroupStep_shapes env args _ hx
    simp [Event.isCgroupOp] at this
  · have := remediation_shapes env args.attachpid flags _ hx
    simp [Event.isMountRem] at this
  · rcases schedStep_mem env args _ hx with ⟨q, _, he, _⟩
    simp at he
  · have := execStep_shapes env args _ hx
    simp [Event.isExecOp] at this

/-- C7: whenever a PID report is emitted its bytes are exactly one control
byte of value 1, then the ASCII decimal digits of the reported pid, then a
newline, with nothing else in that write; the reported pid is the child's pid
(emitted by the parent) when a fork occurred and the process's own pid
otherwise; the digit bytes are ASCII digits 48..57 and decode to the pid. -/
theorem C7_pid_report_framing (env : Env) (args : Args) (evs : List Event) (flags0 : Int)
    (h : nsResolve env args = (evs, Except.ok flags0)) :
    (∀ bs, Event.pidReport bs ∈ (mainRun env args).parentTrace →
      args.printpid = true ∧
      ∃ c, env.forkResult = some c ∧ bs = 1 :: decBytes c ++ [10]) ∧
    (∀ bs, Event.pidReport bs ∈ (mainRun env args).trace →
      args.printpid = true ∧ (mainRun env args).forked = false ∧
      bs = 1 :: decBytes env.selfPid ++ [10]) ∧
    (∀ c, env.forkResult = some c → (mainRun env args).forked = true →
      args.printpid = true →
      Event.pidReport (1 :: decBytes c ++ [10]) ∈ (mainRun env args).parentTrace) ∧
    (∀ p, ∀ b ∈ decBytes p, 48 ≤ b ∧ b ≤ 57) ∧
    (∀ p, (decDigitsRev p).foldr (fun d acc => d + 10 * acc) 0 = p) := by
  rw [mainRun_ok env args evs flags0 h]
  have hevshape := nsResolve_ok_shapes env args evs _ h
  have hnp : ∀ bs, Event.pidReport bs ∉
      ((if args.closefds then [Event.closeFDs] else []) ++ evs ++ [sessEvent args env]) :=
    fun bs => not_mem_pre env args evs hevshape (Event.pidReport bs)
      (by simp) rfl (by simp) (by simp)
  refine ⟨?_, ?_, ?_, decBytes_range, decDigitsRev_foldr⟩
  · intro bs hin
    rcases parentTrace_mem env args _ evs flags0 _ hin with ⟨c, hf, hp, he⟩ | he
    · have hbs : bs = pidReportBytes c := by injection he
      exact ⟨hp, c, hf, by rw [hbs]; rfl⟩
    · simp at he
  · intro bs hin
    by_cases hd : doforkOf env args flags0 = true
    · exfalso
      cases hf : env.forkResult with
      | none =>
        rw [afterNs_eq_forkFail env args _ evs flags0 hd hf] at hin
        rw [List.mem_append] at hin
        rcases hin with hin | hin
        · exact hnp bs hin
        · simp at hin
      | some c =>
        rw [afterNs_eq_fork env args _ evs flags0 c hd hf] at hin
        rw [List.mem_append] at hin
        rcases hin with hin | hin
        · exact hnp bs hin
        · rw [List.mem_cons] at hin
          rcases hin with hin | hin
          · simp at hin
          · exact contRun_no_report_fork env args flags0 bs hin
    · have hd' : doforkOf env args flags0 = false := by simpa using hd
      rw [afterNs_eq_noFork env args _ evs flags0 hd']
      rw [afterNs_eq_noFork env args _ evs flags0 hd'] at hin
      rw [List.mem_append] at hin
      rcases hin with hin | hin
      · exact absurd hin (hnp bs)
      · have := contRun_report_noFork env args flags0 bs hin
        exact ⟨this.2, rfl, by rw [this.1]; rfl⟩
  · intro c hf hforked hp
    by_cases hd : doforkOf env args flags0 = true
    · rw [afterNs_eq_fork env args _ evs flags0 c hd hf]
      simp [hp]
      by_cases hw : (cAnd flags0 CLONE_NEWPID != 0) = true <;>
        simp [hw, pidReportBytes]
    · have hd' : doforkOf env args flags0 = false := by simpa using hd
      rw [afterNs_eq_noFork env args _ evs flags0 hd'] at hforked
      simp at hforked

/-- Arguments `-P -p` (PID namespace plus PID report). -/
def argsC7 : Args :=
  { argsNone with flags := cOr CLONE_NEWPID CLONE_NEWNS, printpid := true }

theorem C7_witness :
    Event.pidReport (1 :: decBytes 77 ++ [10]) ∈ (mainRun envOk argsC7).parentTrace ∧
    (∀ b ∈ decBytes 77, 48 ≤ b ∧ b ≤ 57) ∧
    (decDigitsRev 77).foldr (fun d acc => d + 10 * acc) 0 = 77 :=
  have h := C7_pid_report_framing envOk argsC7 [Event.unshareCall argsC7.flags]
    argsC7.flags rfl
  ⟨h.2.2.1 77 rfl (by decide) rfl, h.2.2.2.1 77, h.2.2.2.2 77⟩

theorem afterNs_trace_mem (env : Env) (args : Args) (pre0 evs : List Event) (flags : Int) :
    ∀ e ∈ (afterNs env args pre0 evs flags).trace,
      e ∈ pre0 ++ evs ++ [sessEvent args env] ∨ e = Event.forkCall ∨
      e ∈ (contRun env args flags true).1 ∨ e ∈ (contRun env args flags false).1 := by
  intro e he
  by_cases hd : doforkOf env args flags = true
  · cases hf : env.forkResult with
    | none =>
      rw [afterNs_eq_forkFail env args pre0 evs flags hd hf] at he
      rw [List.mem_append] at he
      rcases he with he | he
      · exact Or.inl he
      · simp at he
        exact Or.inr (Or.inl he)
    | some c =>
      rw [afterNs_eq_fork env args pre0 evs flags c hd hf] at he
      rw [List.mem_append] at he
      rcases he with he | he
      · exact Or.inl he
      · rw [List.mem_cons] at he
        rcases he with he | he
        · exact Or.inr (Or.inl he)
        · exact Or.inr (Or.inr (Or.inl he))
  · have hd' : doforkOf env args flags = false := by simpa using hd
    rw [afterNs_eq_noFork env args pre0 evs flags hd'] at he
    rw [List.mem_append] at he
    rcases he with he | he
    · exact Or.inl he
    · exact Or.inr (Or.inr (Or.inr he))

theorem isNsOp_not_mount (e : Event) (h : e.isNsOp = true) : e.isMountRem = false := by
  cases e <;> first | rfl | simp [Event.isNsOp] at h

theorem isCgroupOp_not_mount (e : Event) (h : e.isCgroupOp = true) : e.isMountRem = false := by
  cases e <;> first | rfl | simp [Event.isCgroupOp] at h

theorem isExecOp_not_mount (e : Event) (h : e.isExecOp = true) : e.isMountRem = false := by
  cases e <;> first | rfl | simp [Event.isExecOp] at h

theorem contRun_attach_no_mount (env : Env) (args : Args) (flags : Int) (dofork : Bool)
    (ha : args.attachpid ≠ 0) :
    ∀ e ∈ (contRun env args flags dofork).1, e.isMountRem = false := by
  intro e he
  rcases contRun_mem env args flags dofork e he with hx | hx | hx | hx | hx
  · rw [(noForkReport_mem env args flags dofork e hx).1]
    rfl
  · exact isCgroupOp_not_mount e (cgroupStep_shapes env args e hx)
  · exact absurd (remediation_guard env args.attachpid flags e hx).1 ha
  · rcases schedStep_mem env args e hx with ⟨q, _, rfl, _⟩
    rfl
  · exact isExecOp_not_mount e (execStep_shapes env args e hx)

/-- C8: attach-mode invocations never perform any of the three mount
remediation operations, in either the continuing process or the parent; the
remediation block runs only in create mode with a mount-namespace flag in the
effective flag word, and then always starts by making the tree private
(fatal on failure), remounts `/sys` iff a network namespace flag is present
(fatal on failure), and remounts `/proc` iff a PID namespace flag is present
(fatal on failure). -/
theorem C8_mount_remediation :
    (∀ (env : Env) (args : Args), args.attachpid ≠ 0 →
      (∀ e ∈ (mainRun env args).trace, e.isMountRem = false) ∧
      (∀ e ∈ (mainRun env args).parentTrace, e.isMountRem = false)) ∧
    (∀ (env : Env) (ap flags : Int), (ap ≠ 0 ∨ cAnd flags CLONE_NEWNS = 0) →
      remediation env ap flags = ([], none)) ∧
    (∀ (env : Env) (ap flags : Int), ap = 0 → cAnd flags CLONE_NEWNS ≠ 0 →
      Event.mountPrivate ∈ (remediation env ap flags).1 ∧
      (env.mountPrivOk = false →
        remediation env ap flags = ([Event.mountPrivate], some (Outcome.exit 1))) ∧
      (env.mountPrivOk = true →
        ((Event.mountSys ∈ (remediation env ap flags).1) ↔ cAnd flags CLONE_NEWNET ≠ 0) ∧
        (cAnd flags CLONE_NEWNET ≠ 0 → env.mountSysOk = false →
          remediation env ap flags =
            ([Event.mountPrivate, Event.mountSys], some (Outcome.exit 1))) ∧
        ((cAnd flags CLONE_NEWNET = 0 ∨ env.mountSysOk = true) →
          ((Event.mountProc ∈ (remediation env ap flags).1) ↔ cAnd flags CLONE_NEWPID ≠ 0) ∧
          (cAnd flags CLONE_NEWPID ≠ 0 → env.mountProcOk = false →
            (remediation env ap flags).2 = some (Outcome.exit 1))))) := by
  refine ⟨?_, ?_, ?_⟩
  · intro env args ha
    constructor
    · intro e he
      rcases hres : nsResolve env args with ⟨evs, res⟩
      cases res with
      | error o =>
        rw [mainRun_err env args evs o hres] at he
        simp only [List.mem_append] at he
        rcases he with he | he
        · by_cases hc : args.closefds = true
          · rw [if_pos hc] at he
            simp at he
            rw [he]
            rfl
          · rw [if_neg hc] at he
            simp at he
        · exact isNsOp_not_mount e (nsResolve_ok_shapes env args evs _ hres e he)
      | ok flags =>
        rw [mainRun_ok env args evs flags hres] at he
        rcases afterNs_trace_mem env args _ evs flags e he with hx | hx | hx | hx
        · simp only [List.mem_append, List.mem_singleton] at hx
          rcases hx with (hx | hx) | hx
          · by_cases hc : args.closefds = true
            · rw [if_pos hc] at hx
              simp at hx
              rw [hx]
              rfl
            · rw [if_neg hc] at hx
              simp at hx
          · exact isNsOp_not_mount e (nsResolve_ok_shapes env args evs _ hres e hx)
          · rcases sessEvent_cases args env with ⟨_, hy⟩ | ⟨_, hy⟩ <;> rw [hy] at hx <;>
              rw [hx] <;> rfl
        · rw [hx]
          rfl
        · exact contRun_attach_no_mount env args flags true ha e hx
        · exact contRun_attach_no_mount env args flags false ha e hx
    · intro e he
      rcases hres : nsResolve env args with ⟨evs, res⟩
      cases res with
      | error o =>
        rw [mainRun_err env args evs o hres] at he
        simp at he
      | ok flags =>
        rw [mainRun_ok env args evs flags hres] at he
        rcases parentTrace_mem env args _ evs flags e he with ⟨c, _, _, rfl⟩ | rfl <;> rfl
  · intro env ap flags h
    unfold remediation
    have hg : (ap == 0 && (cAnd flags CLONE_NEWNS) != 0) = false := by
      rcases h with h | h <;> simp [h]
    rw [hg]
    simp
  · intro env ap flags h0 hns
    have hg : (ap == 0 && (cAnd flags CLONE_NEWNS) != 0) = true := by
      simp [h0, hns]
    refine ⟨?_, ?_, ?_⟩
    · unfold remediation
      rw [hg]
      simp only [if_true]
      split_ifs <;> simp
    · intro hp
      unfold remediation
      rw [hg]
      simp [hp]
    · intro hp
      refine ⟨?_, ?_, ?_⟩
      · unfold remediation
        rw [hg]
        simp only [if_true, hp]
        by_cases hn : (cAnd flags CLONE_NEWNET != 0) = true <;>
          simp only [hn, Bool.not_true, if_true, if_false, ite_true, ite_false] <;>
          split_ifs <;>
          simp_all [bne_iff_ne]
      · intro hnet hsys
        unfold remediation
        rw [hg]
        have hn : (cAnd flags CLONE_NEWNET != 0) = true := by simpa using hnet
        simp [hp, hn, hsys]
      · intro hor
        constructor
        · unfold remediation
          rw [hg]
          simp only [if_true, hp]
          by_cases hn : (cAnd flags CLONE_NEWNET != 0) = true <;>
            simp only [hn, Bool.not_true, if_true, if_false, ite_true, ite_false] <;>
            split_ifs <;>
            simp_all [bne_iff_ne]
        · intro hpid hproc
          unfold remediation
          rw [hg]
          have hq : (cAnd flags CLONE_NEWPID != 0) = true := by simpa using hpid
          rcases hor with hor | hor
          · have hn : (cAnd flags CLONE_NEWNET != 0) = false := by simpa using hor
            simp [hp, hn, hq, hproc]
          · by_cases hn : (cAnd flags CLONE_NEWNET != 0) = true <;>
              simp [hp, hn, hq, hproc, hor]

/-- Attach-mode arguments `-a 1234`. -/
def argsAttach : Args := { argsNone with attachpid := 1234 }

theorem C8_witness :
    (∀ e ∈ (mainRun envOk argsAttach).trace, e.isMountRem = false) ∧
    Event.mountPrivate ∈ (remediation envOk 0 (cOr CLONE_NEWNET CLONE_NEWNS)).1 ∧
    ((Event.mountSys ∈ (remediation envOk 0 (cOr CLONE_NEWNET CLONE_NEWNS)).1) ↔
      cAnd (cOr CLONE_NEWNET CLONE_NEWNS) CLONE_NEWNET ≠ 0) :=
  have h1 := (C8_mount_remediation.1 envOk argsAttach (by decide)).1
  have h3 := C8_mount_remediation.2.2 envOk 0 (cOr CLONE_NEWNET CLONE_NEWNS) rfl (by decide)
  ⟨h1, h3.1, (h3.2.2 rfl).1⟩

theorem contRun_schedSet (env : Env) (args : Args) (flags : Int) (dofork : Bool) (q : Int) :
    Event.schedSet q ∈ (contRun env args flags dofork).1 →
    ∃ s, args.optargFinal = some s ∧ q = atoi s ∧ args.rtprio ≠ 0 := by
  intro he
  rcases contRun_mem env args flags dofork _ he with hx | hx | hx | hx | hx
  · have := (noForkReport_mem env args flags dofork _ hx).1
    simp at this
  · have := cgroupStep_shapes env args _ hx
    simp [Event.isCgroupOp] at this
  · have := remediation_shapes env args.attachpid flags _ hx
    simp [Event.isMountRem] at this
  · rcases schedStep_mem env args _ hx with ⟨s, hs, he2, hr⟩
    have hq : q = atoi s := by injection he2
    exact ⟨s, hs, hq, hr⟩
  · have := execStep_shapes env args _ hx
    simp [Event.isExecOp] at this

theorem schedSet_trace (env : Env) (args : Args) (q : Int) :
    Event.schedSet q ∈ (mainRun env args).trace →
    ∃ s, args.optargFinal = some s ∧ q = atoi s ∧ args.rtprio ≠ 0 := by
  intro he
  rcases hres : nsResolve env args with ⟨evs, res⟩
  cases res with
  | error o =>
    rw [mainRun_err env args evs o hres] at he
    simp only [List.mem_append] at he
    rcases he with he | he
    · by_cases hc : args.closefds = true
      · rw [if_pos hc] at he
        simp at he
      · rw [if_neg hc] at he
        simp at he
    · have := nsResolve_ok_shapes env args evs _ hres _ he
      simp [Event.isNsOp] at this
  | ok flags =>
    rw [mainRun_ok env args evs flags hres] at he
    rcases afterNs_trace_mem env args _ evs flags _ he with hx | hx | hx | hx
    · simp only [List.mem_append, List.mem_singleton] at hx
      rcases hx with (hx | hx) | hx
      · by_cases hc : args.closefds = true
        · rw [if_pos hc] at hx
          simp at hx
        · rw [if_neg hc] at hx
          simp at hx
      · have := nsResolve_ok_shapes env args evs _ hres _ hx
        simp [Event.isNsOp] at this
      · rcases sessEvent_cases args env with ⟨_, hy⟩ | ⟨_, hy⟩ <;> rw [hy] at hx <;> simp at hx
    · simp at hx
    · exact contRun_schedSet env args flags true q hx
    · exact contRun_schedSet env args flags false q hx

/-- C2: for any option sequence, whenever the round-robin scheduler call is
made with priority `q`, that `q` is `atoi` of the text sitting in the shared
`optarg` storage at use time -- the last argument-taking option's text -- and
not necessarily the integer captured when `-r` was parsed (the call itself
happens only when that captured integer was non-zero). -/
theorem C2_rtprio_reparsed (items : List OptItem) (hasCmd : Bool) (env : Env) (q : Int) :
    Event.schedSet q ∈ (mainRun env (argsOfParse (parseOpts items) hasCmd)).trace →
    ∃ s, (parseOpts items).optarg = some s ∧ q = atoi s ∧ (parseOpts items).rtprio ≠ 0 :=
  fun h => schedSet_trace env (argsOfParse (parseOpts items) hasCmd) q h

/-- Invocation `mnexec -r 50 -g 7 cmd`: `-r` captured 50, but `-g`'s text "7" occupies
`optarg` at use time. -/
def itemsC2 : List OptItem := [OptItem.fr "50", OptItem.fg "7"]

theorem C2_witness :
    Event.schedSet 7 ∈ (mainRun envOk (argsOfParse (parseOpts itemsC2) true)).trace ∧
    (parseOpts itemsC2).rtprio = 50 ∧
    (∃ s, (parseOpts itemsC2).optarg = some s ∧ (7 : Int) = atoi s ∧
      (parseOpts itemsC2).rtprio ≠ 0) :=
  ⟨by decide, by decide, C2_rtprio_reparsed itemsC2 true envOk 7 (by decide)⟩

/-- C6: for a validated group name, the cgroup joiner attempts the tasks-file
open for every recognized controller (cpu, cpuacct, cpuset) and writes the
pid under each controller that opened; it returns normally iff at least one
controller accepted the write, and when none did it emits a diagnostic naming
the group and exits with status 1. -/
theorem C6_cgroup_join (env : Env) (g : String) (pid : Nat) (hv : validate g = true) :
    (∀ c ∈ (["cpu", "cpuacct", "cpuset"] : List String),
      Event.cgroupOpen c g ∈ (cgroup env g pid).1) ∧
    (∀ c ∈ (["cpu", "cpuacct", "cpuset"] : List String), env.cgroupOpenOk c = true →
      Event.cgroupWrite c g pid ∈ (cgroup env g pid).1) ∧
    ((cgroup env g pid).2 = none ↔
      (env.cgroupOpenOk "cpu" = true ∨ env.cgroupOpenOk "cpuacct" = true ∨
        env.cgroupOpenOk "cpuset" = true)) ∧
    ((env.cgroupOpenOk "cpu" = false ∧ env.cgroupOpenOk "cpuacct" = false ∧
        env.cgroupOpenOk "cpuset" = false) →
      (cgroup env g pid).2 = some (Outcome.exit 1) ∧
      Event.diag ("cgroup: could not add to cgroup " ++ g) ∈ (cgroup env g pid).1) := by
  unfold cgroup cgroupController
  by_cases h1 : env.cgroupOpenOk "cpu" = true <;>
    by_cases h2 : env.cgroupOpenOk "cpuacct" = true <;>
    by_cases h3 : env.cgroupOpenOk "cpuset" = true <;>
    simp [hv, h1, h2, h3]

theorem C6_witness :
    (∀ c ∈ (["cpu", "cpuacct", "cpuset"] : List String),
      Event.cgroupOpen c "mygrp7" ∈ (cgroup envOk "mygrp7" 100).1) ∧
    ((cgroup envOk "mygrp7" 100).2 = none ↔
      (envOk.cgroupOpenOk "cpu" = true ∨ envOk.cgroupOpenOk "cpuacct" = true ∨
        envOk.cgroupOpenOk "cpuset" = true)) :=
  have h := C6_cgroup_join envOk "mygrp7" 100 (by decide)
  ⟨h.1, h.2.2.1⟩

/-- C9: for every supported namespace kind, when the target pid's namespace
identity (stat dev/inode of the `/proc` entries) equals the caller's own,
`attachns` reports "unchanged" (return value 0) without performing any open or
join; consequently attaching to a pid all of whose namespaces coincide with
the caller's (in particular the caller's own pid) opens and joins nothing and
yields effective flag word 0. -/
theorem C9_same_ns_noop (env : Env) :
    (∀ ns : NamespaceK, ∀ d i : Nat,
      env.nsStatTarget ns.name = some (d, i) → env.nsStatSelf ns.name = some (d, i) →
      attachns env ns = (0, [])) ∧
    ((∀ ns ∈ namespacesL, sameNsStat env ns.name = true) → env.chdirOk = true →
      ∀ pid, attach env pid = (0, [Event.chdirCwd])) := by
  constructor
  · intro ns d i h1 h2
    have hsame : sameNsStat env ns.name = true := by
      unfold sameNsStat
      rw [h1, h2]
      simp
    unfold attachns
    simp [hsame]
  · intro hall hchdir pid
    have hns : ∀ ns ∈ namespacesL, attachns env ns = (0, []) := by
      intro ns hin
      unfold attachns
      simp [hall ns hin]
    have e1 := hns ⟨CLONE_NEWNET, "net"⟩ (by simp [namespacesL])
    have e2 := hns ⟨CLONE_NEWPID, "pid"⟩ (by simp [namespacesL])
    have e3 := hns ⟨CLONE_NEWUTS, "uts"⟩ (by simp [namespacesL])
    have e4 := hns ⟨CLONE_NEWNS, "mnt"⟩ (by simp [namespacesL])
    have hzero : cOr 0 0 = (0 : Int) := by decide
    unfold attach namespacesL
    rw [attachLoop]
    simp only [e1, hzero]
    rw [attachLoop]
    simp only [e2, hzero]
    rw [attachLoop]
    simp only [e3, hzero]
    rw [attachLoop]
    simp only [e4, hzero]
    rw [attachLoop]
    simp [hchdir]

/-- An environment whose target namespaces coincide with the caller's. -/
def envSame : Env := { envOk with nsStatTarget := fun _ => some (1, 3) }

theorem C9_witness :
    attachns envSame ⟨CLONE_NEWNET, "net"⟩ = (0, []) ∧
    attach envSame 42 = (0, [Event.chdirCwd]) :=
  have h := C9_same_ns_noop envSame
  ⟨h.1 ⟨CLONE_NEWNET, "net"⟩ 1 3 rfl rfl, h.2 (by decide) rfl 42⟩

/-- C1 evaluated at the failing input (status: code bug).  Attaching to pid
1234 in an environment where `/proc/1234/ns/mnt` cannot be opened but the
chroot fallback and the `chdir` restore both succeed: the chroot is performed
and every other namespace joins fine, yet `attach` ORs the negative error
return into its flag accumulator (`flag |= ret`), making the accumulated flag
word -1, so it returns -1 and `main` exits 1 -- the attach does not succeed as
the claim (and the code's own Plan-B comment) intends. -/
theorem C1_chroot_fallback_bug :
    (attach envC1 1234).1 = -1 ∧
    Event.chrootCall 1234 ∈ (attach envC1 1234).2 ∧
    Event.setnsNs "net" ∈ (attach envC1 1234).2 ∧
    Event.chdirCwd ∈ (attach envC1 1234).2 ∧
    envC1.chrootOk = true ∧ envC1.chdirOk = true ∧
    (mainRun envC1 argsAttach).outcome = Outcome.exit 1 ∧
    Event.execCmd ∉ (mainRun envC1 argsAttach).trace := by
  refine ⟨by decide, by decide, by decide, by decide, rfl, rfl, by decide, by decide⟩

end Mnexec